import Mathlib

/-!
Verification of the cloud-run-mcp core against its specification.

The development shallowly embeds the JavaScript source:
  * `lib/tool-registry.js` — tool catalogs, `createToolFilter`, `shouldRegisterTool`;
  * `lib/cli-args.js` — `parseCliArgs` (modelled after minimist extraction);
  * `lib/gcp-logs.js` — `getLogs` filter construction, `buildTimeRangeFilter`,
    `formatLogsAsTable`;
  * `tools.js` — the `get_service_log` pagination loop and handler validation.

JavaScript strings become `String`, `undefined`/`null` option values become
`Option _`, thrown exceptions become `Except.error`, and instants become
signed milliseconds since the Unix epoch (`Int`; JavaScript date arithmetic is
exact integer arithmetic throughout the ECMAScript date range).  Definitions
marked "source:" are direct translations of the named JavaScript function.
-/

/-- `Array.prototype.join(sep)`: concatenate the elements with `sep` between
consecutive elements; the empty list yields the empty string. -/
def joinWith (sep : String) : List String → String
  | [] => ""
  | [x] => x
  | x :: y :: rest => x ++ sep ++ joinWith sep (y :: rest)

/-- JavaScript `String.prototype.substring(0, n)` (and `take`): the first `n`
characters of `s`, or all of `s` when it is shorter. -/
def strTake (s : String) (n : Nat) : String := String.mk (s.data.take n)

/-- JavaScript string truthiness for an optional string: `undefined`/absent and
the empty string are falsy, every other string is truthy. -/
def truthyStr : Option String → Bool
  | none => false
  | some s => !s.isEmpty

/-- `l` occurs as a contiguous run at the start of `m` (boolean checker used to
decide substring containment). -/
def prefixCheck : List Char → List Char → Bool
  | [], _ => true
  | _ :: _, [] => false
  | a :: l, b :: m => a == b && prefixCheck l m

/-- `n` occurs as a contiguous run somewhere in `l` (boolean checker). -/
def containsRun (n : List Char) : List Char → Bool
  | [] => prefixCheck n []
  | c :: t => prefixCheck n (c :: t) || containsRun n t

/-- The string `needle` occurs contiguously inside `hay`. -/
def strContains (needle hay : String) : Prop :=
  ∃ p s : List Char, hay.data = p ++ needle.data ++ s

theorem prefixCheck_iff (n l : List Char) :
    prefixCheck n l = true ↔ ∃ s, l = n ++ s := by
  induction n generalizing l with
  | nil => simp [prefixCheck]
  | cons a t ih =>
    cases l with
    | nil => simp [prefixCheck]
    | cons b m =>
      simp only [prefixCheck, Bool.and_eq_true, beq_iff_eq, ih, List.cons_append,
        List.cons.injEq]
      constructor
      · rintro ⟨rfl, s, rfl⟩; exact ⟨s, rfl, rfl⟩
      · rintro ⟨s, rfl, rfl⟩; exact ⟨rfl, s, rfl⟩

theorem containsRun_iff (n l : List Char) :
    containsRun n l = true ↔ ∃ p s, l = p ++ n ++ s := by
  induction l with
  | nil =>
    simp only [containsRun, prefixCheck_iff]
    constructor
    · rintro ⟨s, h⟩; exact ⟨[], s, h⟩
    · rintro ⟨p, s, h⟩
      rcases List.append_eq_nil.1 (List.append_eq_nil.1 h.symm).1 with ⟨rfl, rfl⟩
      exact ⟨s, h⟩
  | cons c t ih =>
    simp only [containsRun, Bool.or_eq_true, prefixCheck_iff, ih]
    constructor
    · rintro (⟨s, h⟩ | ⟨p, s, h⟩)
      · exact ⟨[], s, by simpa using h⟩
      · exact ⟨c :: p, s, by simp [h]⟩
    · rintro ⟨p, s, h⟩
      cases p with
      | nil => exact Or.inl ⟨s, by simpa using h⟩
      | cons x q =>
        simp only [List.cons_append, List.cons.injEq] at h
        exact Or.inr ⟨q, s, h.2⟩

theorem strContains_iff (needle hay : String) :
    strContains needle hay ↔ containsRun needle.data hay.data = true := by
  rw [containsRun_iff]; rfl

instance (needle hay : String) : Decidable (strContains needle hay) :=
  decidable_of_iff' _ (strContains_iff needle hay)

/-- A string is contiguously contained in any `joinWith` of a list it belongs to. -/
theorem strContains_joinWith {x : String} {l : List String} (sep : String)
    (h : x ∈ l) : strContains x (joinWith sep l) := by
  induction l with
  | nil => cases h
  | cons a t ih =>
    rcases List.mem_cons.1 h with rfl | h
    · cases t with
      | nil => exact ⟨[], [], by simp [joinWith]⟩
      | cons b r =>
        refine ⟨[], (sep ++ joinWith sep (b :: r)).data, ?_⟩
        simp [joinWith, String.data_append]
    · cases t with
      | nil => cases h
      | cons b r =>
        obtain ⟨p, s, hp⟩ := ih h
        refine ⟨(a ++ sep).data ++ p, s, ?_⟩
        simp [joinWith, String.data_append, hp]

/-- Containment is preserved when the containing string is extended on either
side. -/
theorem strContains_append_left {n m : String} (h : strContains n m) (pre : String) :
    strContains n (pre ++ m) := by
  obtain ⟨p, s, hp⟩ := h
  exact ⟨pre.data ++ p, s, by simp [String.data_append, hp]⟩

theorem strContains_append_right {n m : String} (h : strContains n m) (post : String) :
    strContains n (m ++ post) := by
  obtain ⟨p, s, hp⟩ := h
  exact ⟨p, s ++ post.data, by simp [String.data_append, hp]⟩

/-! ## Tool catalog and tool filter (source: `lib/tool-registry.js`) -/

/-- source: `LOCAL_TOOLS` — tools available in local/stdio mode. -/
def LOCAL_TOOLS : List String :=
  ["list_projects", "create_project", "list_services", "get_service",
   "get_service_log", "deploy_local_files", "deploy_local_folder",
   "deploy_file_contents"]

/-- source: `REMOTE_TOOLS` — tools available in remote/GCP mode. -/
def REMOTE_TOOLS : List String :=
  ["list_services", "get_service", "get_service_log", "deploy_file_contents"]

/-- source: the inner closure `shouldRegisterTool` returned by
`createToolFilter`.  A `none` list models JavaScript `null`; the JS guards
`enabledTools && enabledTools.length > 0` treat `null` and `[]` alike. -/
def shouldRegisterTool (enabledTools disabledTools : Option (List String))
    (toolName : String) : Bool :=
  let eL := enabledTools.getD []
  let dL := disabledTools.getD []
  if eL ≠ [] then eL.contains toolName
  else if dL ≠ [] then !(dL.contains toolName)
  else true

/-- source: `const availableTools = isRemote ? REMOTE_TOOLS : LOCAL_TOOLS`. -/
def catalogFor (isRemote : Bool) : List String :=
  if isRemote then REMOTE_TOOLS else LOCAL_TOOLS

/-- source: `const mode = isRemote ? 'remote' : 'local'`. -/
def modeName (isRemote : Bool) : String :=
  if isRemote then "remote" else "local"

/-- source: `list.filter(tool => !availableTools.includes(tool))`. -/
def invalidNames (availableTools l : List String) : List String :=
  l.filter (fun tool => !availableTools.contains tool)

/-- source: the `Error` message raised by `createToolFilter` for a list with
invalid names. -/
def filterErrorMsg (flagName : String) (invalid : List String) (isRemote : Bool) :
    String :=
  "Invalid tool names in --" ++ flagName ++ ": " ++ joinWith ", " invalid ++
    ". Available tools in " ++ modeName isRemote ++ " mode: " ++
    joinWith ", " (catalogFor isRemote)

/-- source: `createToolFilter(enabledTools, disabledTools, isRemote)`.  Throwing
`new Error(msg)` is modelled as `Except.error msg`. -/
def createToolFilter (enabledTools disabledTools : Option (List String))
    (isRemote : Bool) : Except String (String → Bool) :=
  if enabledTools.getD [] ≠ [] ∧
      invalidNames (catalogFor isRemote) (enabledTools.getD []) ≠ [] then
    Except.error (filterErrorMsg "enabled-tools"
      (invalidNames (catalogFor isRemote) (enabledTools.getD [])) isRemote)
  else if disabledTools.getD [] ≠ [] ∧
      invalidNames (catalogFor isRemote) (disabledTools.getD []) ≠ [] then
    Except.error (filterErrorMsg "disabled-tools"
      (invalidNames (catalogFor isRemote) (disabledTools.getD [])) isRemote)
  else
    Except.ok (shouldRegisterTool enabledTools disabledTools)

theorem createToolFilter_ok {e d : Option (List String)} {r : Bool}
    {f : String → Bool} (h : createToolFilter e d r = Except.ok f) :
    f = shouldRegisterTool e d := by
  unfold createToolFilter at h
  split at h
  · cases h
  · split at h
    · cases h
    · exact (Except.ok.inj h).symm

/-- C1: for every configuration accepted by `createToolFilter`, the returned
predicate is the allow-list membership test when `enabledTools` is non-empty,
the deny-list non-membership test when only `disabledTools` is non-empty, and
constantly true when both are empty or absent. -/
theorem claim_C1_toolFilter_semantics (e d : Option (List String)) (r : Bool)
    (f : String → Bool) (n : String) (h : createToolFilter e d r = Except.ok f) :
    (e.getD [] ≠ [] → (f n = true ↔ n ∈ e.getD []))
    ∧ (e.getD [] = [] → d.getD [] ≠ [] → (f n = true ↔ n ∉ d.getD []))
    ∧ (e.getD [] = [] → d.getD [] = [] → f n = true) := by
  obtain rfl : f = shouldRegisterTool e d := createToolFilter_ok h
  refine ⟨fun he => ?_, fun he hd => ?_, fun he hd => ?_⟩
  · simp [shouldRegisterTool, he, List.elem_iff]
  · simp [shouldRegisterTool, he, hd, List.elem_iff]
  · simp [shouldRegisterTool, he, hd]

/-- Witness for C1 at a concrete accepted configuration. -/
theorem claim_C1_witness :
    createToolFilter (some ["get_service"]) none false =
      Except.ok (shouldRegisterTool (some ["get_service"]) none)
    ∧ (shouldRegisterTool (some ["get_service"]) none "get_service" = true ↔
        "get_service" ∈ (some ["get_service"] : Option (List String)).getD []) := by
  refine ⟨rfl, ?_⟩
  exact (claim_C1_toolFilter_semantics (some ["get_service"]) none false
    (shouldRegisterTool (some ["get_service"]) none) "get_service" rfl).1
    (by decide)

theorem strContains_self (s : String) : strContains s s :=
  ⟨[], [], by simp⟩

theorem mem_invalidNames {cat l : List String} {n : String}
    (hn : n ∈ l) (hc : n ∉ cat) : n ∈ invalidNames cat l := by
  simp [invalidNames, List.mem_filter, List.elem_iff, hn, hc]

theorem invalidNames_eq_nil {cat l : List String}
    (h : ∀ n ∈ l, n ∈ cat) : invalidNames cat l = [] := by
  simp only [invalidNames, List.filter_eq_nil_iff]
  intro a ha
  simp [List.elem_iff, h a ha]

/-- Every name occurring in `invalid` occurs contiguously in the corresponding
error message, and so does the joined catalog. -/
theorem filterErrorMsg_contains (flagName : String) (invalid : List String)
    (r : Bool) :
    (∀ n ∈ invalid, strContains n (filterErrorMsg flagName invalid r))
    ∧ strContains (joinWith ", " (catalogFor r)) (filterErrorMsg flagName invalid r) := by
  constructor
  · intro n hn
    have h1 : strContains n (joinWith ", " invalid) := strContains_joinWith _ hn
    unfold filterErrorMsg
    exact strContains_append_right (strContains_append_right (strContains_append_right
      (strContains_append_right (strContains_append_left h1 _) _) _) _) _
  · unfold filterErrorMsg
    exact strContains_append_left (strContains_self _) _

/-- C7 (amended): if the enabled list contains a name outside the mode's
catalog, `createToolFilter` raises a configuration error whose message contains
every offending enabled name and the joined catalog; if the enabled list is
entirely valid and the disabled list contains a name outside the catalog, it
raises an error whose message contains every offending disabled name and the
joined catalog.  (The original claim fails when both lists contain invalid
names: only the enabled list's offenders are reported.) -/
theorem claim_C7_invalid_names_error (e d : Option (List String)) (r : Bool) :
    ((∃ n ∈ e.getD [], n ∉ catalogFor r) →
      ∃ msg, createToolFilter e d r = Except.error msg ∧
        (∀ n ∈ e.getD [], n ∉ catalogFor r → strContains n msg) ∧
        strContains (joinWith ", " (catalogFor r)) msg)
    ∧ ((∀ n ∈ e.getD [], n ∈ catalogFor r) →
      (∃ n ∈ d.getD [], n ∉ catalogFor r) →
      ∃ msg, createToolFilter e d r = Except.error msg ∧
        (∀ n ∈ d.getD [], n ∉ catalogFor r → strContains n msg) ∧
        strContains (joinWith ", " (catalogFor r)) msg) := by
  constructor
  · rintro ⟨n, hn, hnc⟩
    have hne : e.getD [] ≠ [] := List.ne_nil_of_mem hn
    have hinv : invalidNames (catalogFor r) (e.getD []) ≠ [] :=
      List.ne_nil_of_mem (mem_invalidNames hn hnc)
    refine ⟨filterErrorMsg "enabled-tools"
      (invalidNames (catalogFor r) (e.getD [])) r, ?_, ?_, ?_⟩
    · unfold createToolFilter
      rw [if_pos ⟨hne, hinv⟩]
    · intro m hm hmc
      exact (filterErrorMsg_contains _ _ r).1 m (mem_invalidNames hm hmc)
    · exact (filterErrorMsg_contains _ _ r).2
  · rintro hval ⟨n, hn, hnc⟩
    have hinvE : invalidNames (catalogFor r) (e.getD []) = [] :=
      invalidNames_eq_nil hval
    have hnd : d.getD [] ≠ [] := List.ne_nil_of_mem hn
    have hinv : invalidNames (catalogFor r) (d.getD []) ≠ [] :=
      List.ne_nil_of_mem (mem_invalidNames hn hnc)
    refine ⟨filterErrorMsg "disabled-tools"
      (invalidNames (catalogFor r) (d.getD [])) r, ?_, ?_, ?_⟩
    · unfold createToolFilter
      rw [if_neg (by simp [hinvE]), if_pos ⟨hnd, hinv⟩]
    · intro m hm hmc
      exact (filterErrorMsg_contains _ _ r).1 m (mem_invalidNames hm hmc)
    · exact (filterErrorMsg_contains _ _ r).2
  
/-- Witness for C7 at concrete offending lists, one per branch. -/
theorem claim_C7_witness :
    (∃ msg, createToolFilter (some ["bogus", "list_services"]) none false =
        Except.error msg ∧
      (∀ n ∈ ["bogus", "list_services"], n ∉ catalogFor false → strContains n msg) ∧
      strContains (joinWith ", " (catalogFor false)) msg)
    ∧ (∃ msg, createToolFilter none (some ["zzz"]) true = Except.error msg ∧
      (∀ n ∈ ["zzz"], n ∉ catalogFor true → strContains n msg) ∧
      strContains (joinWith ", " (catalogFor true)) msg) :=
  ⟨(claim_C7_invalid_names_error (some ["bogus", "list_services"]) none false).1
      ⟨"bogus", by decide, by decide⟩,
   (claim_C7_invalid_names_error none (some ["zzz"]) true).2
      (by intro n hn; cases hn)
      ⟨"zzz", by decide, by decide⟩⟩

/-- C7 counterexample: with both lists invalid (`enabledTools = ["bogus"]`,
`disabledTools = ["zzz"]`, remote mode), `createToolFilter` raises an error
whose message does not contain the offending disabled name `"zzz"`, so the
claim's "the error message contains every offending name" fails as stated. -/
theorem claim_C7_counterexample :
    createToolFilter (some ["bogus"]) (some ["zzz"]) true =
      Except.error ("Invalid tool names in --enabled-tools: bogus. Available tools in remote mode: list_services, get_service, get_service_log, deploy_file_contents")
    ∧ ¬ strContains "zzz"
        "Invalid tool names in --enabled-tools: bogus. Available tools in remote mode: list_services, get_service, get_service_log, deploy_file_contents" :=
  ⟨rfl, by decide⟩

/-! ## Tool registration (source: `tools.js`, `registerTools` /
`registerToolsRemote`) -/

/-- source: the tool names guarded by `if (!toolFilter || toolFilter('...'))`
in `registerTools`, in registration order. -/
def localToolOrder : List String :=
  ["list_projects", "create_project", "list_services", "get_service",
   "get_service_log", "get_logs", "get_log_resource_types",
   "deploy_local_files", "deploy_local_folder", "deploy_file_contents"]

/-- source: the tool names guarded in `registerToolsRemote`, in registration
order. -/
def remoteToolOrder : List String :=
  ["list_services", "get_service", "get_service_log", "get_logs",
   "get_log_resource_types", "deploy_file_contents"]

/-- source: the set of tools a registration function actually registers —
each `server.tool(name, ...)` call runs iff `!toolFilter || toolFilter(name)`. -/
def registeredTools (order : List String) (toolFilter : Option (String → Bool)) :
    List String :=
  order.filter (fun n => (toolFilter.getD (fun _ => true)) n)

/-- C10: `get_logs` and `get_log_resource_types` belong to neither catalog, yet
both registration functions register them when the filter is absent or is the
default (no lists supplied) filter; for every non-empty `enabledTools` list the
two tools are never registered: naming either of them makes `createToolFilter`
raise an error, and a filter built from any accepted non-empty allow-list
rejects them. -/
theorem claim_C10_hidden_log_tools (e : List String) (he : e ≠ [])
    (d : Option (List String)) (r : Bool) :
    ("get_logs" ∉ LOCAL_TOOLS ∧ "get_logs" ∉ REMOTE_TOOLS ∧
      "get_log_resource_types" ∉ LOCAL_TOOLS ∧
      "get_log_resource_types" ∉ REMOTE_TOOLS)
    ∧ ("get_logs" ∈ registeredTools localToolOrder none ∧
      "get_logs" ∈ registeredTools remoteToolOrder none ∧
      "get_log_resource_types" ∈ registeredTools localToolOrder none ∧
      "get_log_resource_types" ∈ registeredTools remoteToolOrder none)
    ∧ ("get_logs" ∈ registeredTools localToolOrder
          (some (shouldRegisterTool none none)) ∧
      "get_logs" ∈ registeredTools remoteToolOrder
          (some (shouldRegisterTool none none)) ∧
      "get_log_resource_types" ∈ registeredTools localToolOrder
          (some (shouldRegisterTool none none)) ∧
      "get_log_resource_types" ∈ registeredTools remoteToolOrder
          (some (shouldRegisterTool none none)))
    ∧ (("get_logs" ∈ e ∨ "get_log_resource_types" ∈ e) →
        ∃ msg, createToolFilter (some e) d r = Except.error msg)
    ∧ (∀ f, createToolFilter (some e) d r = Except.ok f →
        "get_logs" ∉ registeredTools localToolOrder (some f) ∧
        "get_logs" ∉ registeredTools remoteToolOrder (some f) ∧
        "get_log_resource_types" ∉ registeredTools localToolOrder (some f) ∧
        "get_log_resource_types" ∉ registeredTools remoteToolOrder (some f)) := by
  have hcat : ∀ n, n = "get_logs" ∨ n = "get_log_resource_types" →
      n ∉ catalogFor r := by
    rintro n (rfl | rfl) <;> cases r <;> decide
  refine ⟨by decide, by decide, by decide, ?_, ?_⟩
  · rintro (hmem | hmem)
    · have hinv : invalidNames (catalogFor r) e ≠ [] :=
        List.ne_nil_of_mem (mem_invalidNames hmem (hcat _ (Or.inl rfl)))
      exact ⟨_, by unfold createToolFilter; rw [if_pos ⟨by simpa using he, by simpa using hinv⟩]⟩
    · have hinv : invalidNames (catalogFor r) e ≠ [] :=
        List.ne_nil_of_mem (mem_invalidNames hmem (hcat _ (Or.inr rfl)))
      exact ⟨_, by unfold createToolFilter; rw [if_pos ⟨by simpa using he, by simpa using hinv⟩]⟩
  · intro f hf
    have hval : invalidNames (catalogFor r) e = [] := by
      unfold createToolFilter at hf
      split at hf
      · cases hf
      · rename_i hcond
        rcases List.eq_nil_or_concat (invalidNames (catalogFor r) e) with hnil | ⟨l, a, hla⟩
        · exact hnil
        · exact absurd ⟨by simpa using he, by simp [hla]⟩ hcond
    have hmemE : ∀ n, n = "get_logs" ∨ n = "get_log_resource_types" → n ∉ e := by
      intro n hn hmem
      exact List.ne_nil_of_mem (mem_invalidNames hmem (hcat n hn)) hval
    obtain rfl : f = shouldRegisterTool (some e) d := createToolFilter_ok hf
    have hfval : ∀ n, n = "get_logs" ∨ n = "get_log_resource_types" →
        shouldRegisterTool (some e) d n = false := by
      intro n hn
      have hm : n ∉ e := hmemE n hn
      simp [shouldRegisterTool, he, hm]
    refine ⟨?_, ?_, ?_, ?_⟩
    · intro hmem
      have h3 : shouldRegisterTool (some e) d "get_logs" = true :=
        (List.mem_filter.1 hmem).2
      rw [hfval "get_logs" (Or.inl rfl)] at h3
      cases h3
    · intro hmem
      have h3 : shouldRegisterTool (some e) d "get_logs" = true :=
        (List.mem_filter.1 hmem).2
      rw [hfval "get_logs" (Or.inl rfl)] at h3
      cases h3
    · intro hmem
      have h3 : shouldRegisterTool (some e) d "get_log_resource_types" = true :=
        (List.mem_filter.1 hmem).2
      rw [hfval "get_log_resource_types" (Or.inr rfl)] at h3
      cases h3
    · intro hmem
      have h3 : shouldRegisterTool (some e) d "get_log_resource_types" = true :=
        (List.mem_filter.1 hmem).2
      rw [hfval "get_log_resource_types" (Or.inr rfl)] at h3
      cases h3

/-- Witness for C10: a concrete allow-list naming `get_logs` fails, and a
concrete accepted allow-list excludes it. -/
theorem claim_C10_witness :
    (∃ msg, createToolFilter (some ["get_logs"]) none false = Except.error msg)
    ∧ "get_logs" ∉ registeredTools localToolOrder
        (some (shouldRegisterTool (some ["list_services"]) none)) :=
  ⟨(claim_C10_hidden_log_tools ["get_logs"] (by decide) none false).2.2.2.1
      (Or.inl (by decide)),
   ((claim_C10_hidden_log_tools ["list_services"] (by decide) none false).2.2.2.2
      (shouldRegisterTool (some ["list_services"]) none) rfl).1⟩

/-! ## CLI option parsing (source: `lib/cli-args.js`, `parseCliArgs`) -/

/-- JavaScript `value.split(',')` on character lists: cut at every comma,
keeping empty segments (`",".split(',')` is `["", ""]`). -/
def splitCommaAux (acc : List Char) : List Char → List (List Char)
  | [] => [acc.reverse]
  | c :: rest =>
    if c = ',' then acc.reverse :: splitCommaAux [] rest
    else splitCommaAux (c :: acc) rest

/-- JavaScript `value.split(',')`. -/
def jsSplitComma (v : String) : List String :=
  (splitCommaAux [] v.data).map String.mk

/-- JavaScript `t.trim()`: strip leading and trailing whitespace. -/
def jsTrim (s : String) : String :=
  String.mk (((s.data.dropWhile Char.isWhitespace).reverse.dropWhile
    Char.isWhitespace).reverse)

/-- source: `value.split(',').map(t => t.trim()).filter(t => t.length > 0)`. -/
def splitTrimFilter (v : String) : List String :=
  ((jsSplitComma v).map jsTrim).filter (fun t => t.length > 0)

/-- source: `args['enabled-tools'] ? args['enabled-tools'].split(',')... : null`
for one flag value (`none` models an absent flag; the JS conditional treats an
empty-string value as absent). -/
def parsedCliValue (raw : Option String) : Option (List String) :=
  if truthyStr raw then some (splitTrimFilter (raw.getD "")) else none

/-- source: `parseCliArgs()` after minimist extraction; the two arguments are
the raw values of `--enabled-tools` and `--disabled-tools`. -/
def parseCliArgs (enabledRaw disabledRaw : Option String) :
    Except String (Option (List String) × Option (List String)) :=
  if (parsedCliValue enabledRaw).getD [] ≠ [] ∧
      (parsedCliValue disabledRaw).getD [] ≠ [] then
    Except.error "Cannot specify both --enabled-tools and --disabled-tools. Please use only one."
  else
    Except.ok (parsedCliValue enabledRaw, parsedCliValue disabledRaw)

/-- The original claim's description of one parsed option value: the
split/trim/drop list, or null when the option was absent **or the list reduced
to an empty list**. -/
def claimedCliList (raw : Option String) : Option (List String) :=
  match raw with
  | none => none
  | some v => if splitTrimFilter v = [] then none else some (splitTrimFilter v)

/-- The amended claim's description: null when the option was absent or its
value was the empty string; otherwise the split/trim/drop list (possibly the
empty list). -/
def claimedCliListAmended (raw : Option String) : Option (List String) :=
  match raw with
  | none => none
  | some v => if v = "" then none else some (splitTrimFilter v)

/-- C8 counterexample: for the supplied value `","` the claim demands `null`
(the token list reduces to the empty list), but `parseCliArgs` produces the
empty list, a different value. -/
theorem claim_C8_counterexample :
    parseCliArgs (some ",") none = Except.ok (some [], none)
    ∧ claimedCliList (some ",") = none
    ∧ (some ([] : List String)) ≠ (none : Option (List String)) :=
  ⟨rfl, rfl, by decide⟩

theorem parsedCliValue_eq_claimed (raw : Option String) :
    parsedCliValue raw = claimedCliListAmended raw := by
  cases raw with
  | none => rfl
  | some v =>
    by_cases hv : v = ""
    · subst hv; rfl
    · simp [parsedCliValue, claimedCliListAmended, truthyStr, hv,
        String.isEmpty_iff]

/-- C8 (amended): each option parses to `null` when absent or supplied as the
empty string and otherwise to the comma-split, trimmed, empty-token-dropped
list (which may itself be empty); parsing fails — with the error naming both
flags — iff both resulting lists are non-empty. -/
theorem claim_C8_parseCliArgs (e d : Option String) :
    (∀ et dt, parseCliArgs e d = Except.ok (et, dt) →
      et = claimedCliListAmended e ∧ dt = claimedCliListAmended d)
    ∧ ((parseCliArgs e d).isOk = false ↔
      (claimedCliListAmended e).getD [] ≠ [] ∧
        (claimedCliListAmended d).getD [] ≠ [])
    ∧ ((parseCliArgs e d).isOk = false →
      parseCliArgs e d = Except.error
        "Cannot specify both --enabled-tools and --disabled-tools. Please use only one.") := by
  refine ⟨?_, ?_, ?_⟩
  · intro et dt hok
    unfold parseCliArgs at hok
    split at hok
    · cases hok
    · have h := Except.ok.inj hok
      exact ⟨(congrArg Prod.fst h).symm.trans (parsedCliValue_eq_claimed e),
        (congrArg Prod.snd h).symm.trans (parsedCliValue_eq_claimed d)⟩
  · unfold parseCliArgs
    split
    · rename_i hcond
      rw [parsedCliValue_eq_claimed e, parsedCliValue_eq_claimed d] at hcond
      simpa [Except.isOk, Except.toBool] using hcond
    · rename_i hcond
      rw [parsedCliValue_eq_claimed e, parsedCliValue_eq_claimed d] at hcond
      simpa [Except.isOk, Except.toBool] using hcond
  · intro hfail
    unfold parseCliArgs at hfail ⊢
    split at hfail
    · rename_i hcond
      rw [if_pos hcond]
    · simp [Except.isOk, Except.toBool] at hfail

/-- Witness for C8 at a concrete argument assignment exercising splitting,
trimming and empty-token dropping. -/
theorem claim_C8_witness :
    some ["deploy_local_files", "list_services"] =
      claimedCliListAmended (some "deploy_local_files, ,list_services")
    ∧ (none : Option (List String)) = claimedCliListAmended none :=
  (claim_C8_parseCliArgs (some "deploy_local_files, ,list_services") none).1
    (some ["deploy_local_files", "list_services"]) none rfl

/-! ## Time range parsing (source: `lib/gcp-logs.js`, `buildTimeRangeFilter`) -/

/-- The unit letter of a time-range token: hours, minutes or days
(source: the regex character class `[hmd]`). -/
inductive TimeUnit
  | h
  | m
  | d
deriving DecidableEq

/-- The character denoting each unit. -/
def unitChar : TimeUnit → Char
  | .h => 'h'
  | .m => 'm'
  | .d => 'd'

/-- Classify a character as a time unit (regex class `[hmd]`). -/
def charToUnit (c : Char) : Option TimeUnit :=
  if c = 'h' then some .h
  else if c = 'm' then some .m
  else if c = 'd' then some .d
  else none

/-- source: the `switch (unit)` durations — `value*60*60*1000`, `value*60*1000`,
`value*24*60*60*1000` milliseconds. -/
def unitMs : TimeUnit → Nat
  | .h => 3600000
  | .m => 60000
  | .d => 86400000

/-- JavaScript `parseInt` on a run of decimal digits. -/
def digitsToNat (cs : List Char) : Nat :=
  cs.foldl (fun a c => a * 10 + (c.toNat - 48)) 0

/-- source: `timeRange.match(/^(\d+)([hmd])$/)` — the token parses iff it is a
non-empty run of digits followed by a single unit letter. -/
def parseTimeRange (s : String) : Option (Nat × TimeUnit) :=
  match s.data.getLast?, s.data.dropLast with
  | none, _ => none
  | some c, ds =>
    if ds ≠ [] ∧ ds.all Char.isDigit then
      (charToUnit c).map (fun u => (digitsToNat ds, u))
    else none

/-- Zero-padded decimal rendering of a number to a given width. -/
def padZero (w n : Nat) : String :=
  let s := Nat.repr n
  String.mk (List.replicate (w - s.length) '0') ++ s

/-- Proleptic-Gregorian civil date (year, month, day) of a signed day count
since 1970-01-01 (the standard era-based conversion, as used by ECMAScript
dates; `ediv`/`emod` give the required floored quotient and nonnegative
remainder). -/
def civilFromDays (days : Int) : Int × Nat × Nat :=
  let z := days + 719468
  let era := z.ediv 146097
  let doe := (z.emod 146097).toNat
  let yoe := (doe - doe / 1460 + doe / 36524 - doe / 146096) / 365
  let doy := doe - (365 * yoe + yoe / 4 - yoe / 100)
  let mp := (5 * doy + 2) / 153
  let dd := doy - (153 * mp + 2) / 5 + 1
  let mm := if mp < 10 then mp + 3 else mp - 9
  ((yoe : Int) + era * 400 + (if mm ≤ 2 then 1 else 0), mm, dd)

/-- The ECMAScript date-time-string year field: four digits for years 0–9999,
otherwise the expanded six-digit form with an explicit sign. -/
def isoYear (y : Int) : String :=
  if 0 ≤ y ∧ y ≤ 9999 then padZero 4 y.toNat
  else if 9999 < y then "+" ++ padZero 6 y.toNat
  else "-" ++ padZero 6 (-y).toNat

/-- JavaScript `Date.prototype.toISOString()` for a signed instant in
milliseconds since the epoch: negative instants render as pre-1970 timestamps
(e.g. `-1` ↦ `1969-12-31T23:59:59.999Z`).  Instants are modelled as exact
integers; within the ECMAScript date range (±8.64×10¹⁵ ms) the rendering
matches ECMA-262, expanded years included. -/
def toISOString (ms : Int) : String :=
  let days := ms.ediv 86400000
  let rem := (ms.emod 86400000).toNat
  let hh := rem / 3600000
  let mi := rem % 3600000 / 60000
  let ss := rem % 60000 / 1000
  let msc := rem % 1000
  let ymd := civilFromDays days
  isoYear ymd.1 ++ "-" ++ padZero 2 ymd.2.1 ++ "-" ++ padZero 2 ymd.2.2 ++ "T" ++
    padZero 2 hh ++ ":" ++ padZero 2 mi ++ ":" ++ padZero 2 ss ++ "." ++
    padZero 3 msc ++ "Z"

/-- source: `buildTimeRangeFilter(timeRange)` evaluated at instant `now` (the
JS `new Date()`); `null` becomes `none`.  The subtraction is over `Int`, so a
duration exceeding `now` yields a negative instant and a pre-1970 clause, as
in the source. -/
def buildTimeRangeFilter (now : Int) (timeRange : String) : Option String :=
  match parseTimeRange timeRange with
  | none => none
  | some (v, u) =>
    some ("timestamp>=\"" ++ toISOString (now - (v : Int) * (unitMs u : Int)) ++ "\"")

theorem charToUnit_unitChar {c : Char} {u : TimeUnit}
    (h : charToUnit c = some u) : unitChar u = c := by
  unfold charToUnit at h
  split_ifs at h with h1 h2 h3
  · subst h1; cases Option.some.inj h; rfl
  · subst h2; cases Option.some.inj h; rfl
  · subst h3; cases Option.some.inj h; rfl

/-- C4: at every instant `now`, a time-range token consisting of a non-empty
digit run followed by a unit letter `h`, `m` or `d` yields exactly the clause
`timestamp>="<ISO-8601 of now minus amount×unit>"` (a duration exceeding `now`
gives a pre-1970 timestamp); every other token yields no clause —
`buildTimeRangeFilter` is total, so a malformed range degrades to the absence
of a time filter rather than an error. -/
theorem claim_C4_timeRange (now : Int) (s : String) :
    (∀ (ds : List Char) (u : TimeUnit), ds ≠ [] → (∀ c ∈ ds, c.isDigit = true) →
      s.data = ds ++ [unitChar u] →
      buildTimeRangeFilter now s =
        some ("timestamp>=\"" ++
          toISOString (now - (digitsToNat ds : Int) * (unitMs u : Int)) ++ "\""))
    ∧ ((¬ ∃ (ds : List Char) (u : TimeUnit), ds ≠ [] ∧
        (∀ c ∈ ds, c.isDigit = true) ∧ s.data = ds ++ [unitChar u]) →
      buildTimeRangeFilter now s = none) := by
  constructor
  · intro ds u hne hdig hs
    have h1 : s.data.getLast? = some (unitChar u) := by
      rw [hs]; exact List.getLast?_concat _
    have h2 : s.data.dropLast = ds := by
      rw [hs]; exact List.dropLast_concat
    have h3 : charToUnit (unitChar u) = some u := by cases u <;> rfl
    have hall : ds.all Char.isDigit = true := List.all_eq_true.2 hdig
    simp [buildTimeRangeFilter, parseTimeRange, h1, h2, h3, hne, hall]
  · intro hno
    cases hl : s.data.getLast? with
    | none => simp [buildTimeRangeFilter, parseTimeRange, hl]
    | some c =>
      by_cases hcond : s.data.dropLast ≠ [] ∧ s.data.dropLast.all Char.isDigit
      · cases hu : charToUnit c with
        | none => simp [buildTimeRangeFilter, parseTimeRange, hl, hcond, hu]
        | some u =>
          exfalso
          apply hno
          have hne' : s.data ≠ [] := by
            intro h0
            rw [h0] at hl
            cases hl
          refine ⟨s.data.dropLast, u, hcond.1, List.all_eq_true.1 hcond.2, ?_⟩
          rw [charToUnit_unitChar hu]
          have hgl : s.data.getLast hne' = c :=
            Option.some.inj ((List.getLast?_eq_getLast _ hne').symm.trans hl)
          rw [← hgl]
          exact (List.dropLast_append_getLast hne').symm
      · simp only [List.all_eq_true] at hcond
        simp [buildTimeRangeFilter, parseTimeRange, hl, hcond]

/-- Witness for C4: `"2h"` at two hours past the epoch yields the epoch clause;
`"2h"` at the epoch itself yields a pre-1970 clause; `"5x"` yields no clause. -/
theorem claim_C4_witness :
    buildTimeRangeFilter 7200000 "2h" =
      some ("timestamp>=\"" ++
        toISOString (7200000 - (digitsToNat ['2'] : Int) * (unitMs TimeUnit.h : Int))
        ++ "\"")
    ∧ buildTimeRangeFilter 0 "2h" =
        some "timestamp>=\"1969-12-31T22:00:00.000Z\""
    ∧ buildTimeRangeFilter 7200000 "5x" = none := by
  refine ⟨?_, ?_, ?_⟩
  · exact (claim_C4_timeRange 7200000 "2h").1 ['2'] TimeUnit.h (by decide)
      (by decide) rfl
  · have h := (claim_C4_timeRange 0 "2h").1 ['2'] TimeUnit.h (by decide)
      (by decide) rfl
    rw [h]
    decide
  · refine (claim_C4_timeRange 7200000 "5x").2 ?_
    rintro ⟨ds, u, hne, hdig, heq⟩
    have h1 : ("5x".data).getLast? = some (unitChar u) := by
      rw [heq]; exact List.getLast?_concat _
    have h0 : ("5x".data).getLast? = some 'x' := rfl
    have h2 : unitChar u = 'x' := Option.some.inj ((h0.symm.trans h1).symm)
    cases u <;> exact absurd h2 (by decide)

/-! ## Log query building (source: `lib/gcp-logs.js`, `getLogs`) -/

/-- The query options accepted by `getLogs` (source: the destructured
`options` parameter; `none` models an absent/`undefined` field; JS numbers for
`limit` become `Int`). -/
structure LogQueryOptions where
  filter : Option String := none
  resourceType : Option String := none
  severity : Option String := none
  timeRange : Option String := none
  limit : Option Int := none
  orderBy : Option String := none
  pageToken : Option String := none

/-- source: the `filterParts` array pushed together by `getLogs`: custom filter
in parentheses when truthy, `resource.type="..."` when truthy, `severity>=...`
when the defaulted severity is truthy and not `'DEFAULT'`, and the time-range
clause when `timeRange` is truthy and parses. -/
def getLogsFilterParts (now : Int) (o : LogQueryOptions) : List String :=
  (if truthyStr o.filter then ["(" ++ o.filter.getD "" ++ ")"] else []) ++
  (if truthyStr o.resourceType then
    ["resource.type=\"" ++ o.resourceType.getD "" ++ "\""] else []) ++
  (if o.severity.getD "DEFAULT" ≠ "" ∧ o.severity.getD "DEFAULT" ≠ "DEFAULT" then
    ["severity>=" ++ o.severity.getD "DEFAULT"] else []) ++
  (if truthyStr o.timeRange then
    match buildTimeRangeFilter now (o.timeRange.getD "") with
    | some tf => [tf]
    | none => []
  else [])

/-- source: `filterQuery = filterParts.join(' AND ')`. -/
def getLogsFilterQuery (now : Int) (o : LogQueryOptions) : String :=
  joinWith " AND " (getLogsFilterParts now o)

/-- The original claim's clause list: each clause included whenever its option
is *supplied* (present), with only severity additionally compared against the
`DEFAULT` sentinel and the time range additionally required to parse. -/
def claimedFilterParts (now : Int) (o : LogQueryOptions) : List String :=
  (match o.filter with
    | some f => ["(" ++ f ++ ")"]
    | none => []) ++
  (match o.resourceType with
    | some rt => ["resource.type=\"" ++ rt ++ "\""]
    | none => []) ++
  (match o.severity with
    | some sv => if sv ≠ "DEFAULT" then ["severity>=" ++ sv] else []
    | none => []) ++
  (match o.timeRange with
    | some tr =>
      match buildTimeRangeFilter now tr with
      | some tf => [tf]
      | none => []
    | none => [])

/-- The original claim's filter string. -/
def claimedFilterQuery (now : Int) (o : LogQueryOptions) : String :=
  joinWith " AND " (claimedFilterParts now o)

/-- The amended claim's clause list: a clause is included only when its option
is supplied **non-empty** (JS truthiness), severity moreover not `DEFAULT`,
and the time range moreover parseable. -/
def amendedFilterParts (now : Int) (o : LogQueryOptions) : List String :=
  (o.filter.bind (fun v =>
    if v = "" then none else some ("(" ++ v ++ ")"))).toList ++
  (o.resourceType.bind (fun v =>
    if v = "" then none else some ("resource.type=\"" ++ v ++ "\""))).toList ++
  (o.severity.bind (fun v =>
    if v = "" ∨ v = "DEFAULT" then none else some ("severity>=" ++ v))).toList ++
  (o.timeRange.bind (fun v => buildTimeRangeFilter now v)).toList

theorem truthy_clause_eq (v : Option String) (mk : String → String) :
    (if truthyStr v then [mk (v.getD "")] else []) =
      (v.bind (fun s => if s = "" then none else some (mk s))).toList := by
  cases v with
  | none => rfl
  | some s =>
    by_cases hs : s = ""
    · subst hs; rfl
    · simp [truthyStr, hs, String.isEmpty_iff]

theorem severity_clause_eq (sv : Option String) :
    (if sv.getD "DEFAULT" ≠ "" ∧ sv.getD "DEFAULT" ≠ "DEFAULT" then
      ["severity>=" ++ sv.getD "DEFAULT"] else []) =
      (sv.bind (fun s =>
        if s = "" ∨ s = "DEFAULT" then none else some ("severity>=" ++ s))).toList := by
  cases sv with
  | none => rfl
  | some s =>
    by_cases h1 : s = ""
    · subst h1; rfl
    · by_cases h2 : s = "DEFAULT"
      · subst h2; rfl
      · simp [h1, h2]

theorem time_clause_eq (now : Int) (tr : Option String) :
    (if truthyStr tr then
      match buildTimeRangeFilter now (tr.getD "") with
      | some tf => [tf]
      | none => []
    else []) = (tr.bind (fun v => buildTimeRangeFilter now v)).toList := by
  cases tr with
  | none => rfl
  | some t =>
    by_cases ht : t = ""
    · subst ht; rfl
    · cases hb : buildTimeRangeFilter now t with
      | none => simp [truthyStr, String.isEmpty_iff, ht, hb]
      | some tf => simp [truthyStr, String.isEmpty_iff, ht, hb]

/-- C2 counterexample: with `filter` and `resourceType` supplied as empty
strings, the claim demands the clauses `()` and `resource.type=""`, but the
code's truthiness checks skip them and the built filter string is empty. -/
theorem claim_C2_counterexample :
    getLogsFilterQuery 0 { filter := some "", resourceType := some "" } = ""
    ∧ claimedFilterQuery 0 { filter := some "", resourceType := some "" } =
        "() AND resource.type=\"\""
    ∧ ("" : String) ≠ "() AND resource.type=\"\"" :=
  ⟨rfl, rfl, by decide⟩

/-- C2 (amended): the filter string built by `getLogs` is the `" AND "`-join of
exactly these clauses in this fixed order: `(<filter>)` when `filter` is
supplied non-empty, `resource.type="<resourceType>"` when `resourceType` is
supplied non-empty, `severity>=<severity>` when `severity` is supplied
non-empty and not `DEFAULT`, and the time-range clause when `timeRange` is
supplied and parseable; with no applicable clause the result is the empty
string (`joinWith` of the empty list). -/
theorem claim_C2_filterQuery (now : Int) (o : LogQueryOptions) :
    getLogsFilterQuery now o = joinWith " AND " (amendedFilterParts now o) := by
  unfold getLogsFilterQuery getLogsFilterParts amendedFilterParts
  rw [truthy_clause_eq o.filter (fun v => "(" ++ v ++ ")"),
    truthy_clause_eq o.resourceType (fun v => "resource.type=\"" ++ v ++ "\""),
    severity_clause_eq o.severity, time_clause_eq now o.timeRange]

/-- The request options `getLogs` sends to the logging backend
(source: the `requestOptions` object). -/
structure LogRequestOptions where
  filter : String
  orderBy : String
  pageSize : Int
  pageToken : Option String

/-- source: `getLogs` builds `{filter, orderBy, pageSize: Math.min(limit, 1000)}`
with `limit = 100` and `orderBy = 'timestamp desc'` as destructuring defaults,
adding `pageToken` only when truthy. -/
def getLogsRequestOptions (now : Int) (o : LogQueryOptions) : LogRequestOptions :=
  { filter := getLogsFilterQuery now o
    orderBy := o.orderBy.getD "timestamp desc"
    pageSize := min (o.limit.getD 100) 1000
    pageToken := if truthyStr o.pageToken then o.pageToken else none }

/-- C9: the page size sent to the backend is `min(limit, 1000)` with `limit`
defaulting to 100 when absent; it never exceeds 1000, and a requested limit of
5000 is clamped to 1000. -/
theorem claim_C9_pageSize (now : Int) (o : LogQueryOptions) :
    (getLogsRequestOptions now o).pageSize = min (o.limit.getD 100) 1000
    ∧ (getLogsRequestOptions now o).pageSize ≤ 1000
    ∧ (getLogsRequestOptions now { o with limit := some 5000 }).pageSize = 1000
    ∧ (getLogsRequestOptions now { o with limit := none }).pageSize = 100 :=
  ⟨rfl, min_le_right _ _, min_eq_right (by norm_num), min_eq_left (by norm_num)⟩

/-! ## Table rendering (source: `lib/gcp-logs.js`, `formatLogsAsTable`) -/

/-- A normalized log entry, restricted to the fields the table renderer reads
(source: the objects produced by `formatLogEntry`). -/
structure LogEntry where
  timestamp : String
  severity : String
  resourceType : String
  logData : String

/-- The four cells of one table row. -/
structure TableRow where
  ts : String
  sev : String
  res : String
  msg : String

/-- JavaScript `String.prototype.padEnd(w)`: append spaces up to width `w`
(left-aligned cells). -/
def padEnd (s : String) (w : Nat) : String :=
  s ++ String.mk (List.replicate (w - s.length) ' ')

/-- Padding spaces on the left instead (what "left-padded" literally means;
not what the source does). -/
def padStart (s : String) (w : Nat) : String :=
  String.mk (List.replicate (w - s.length) ' ') ++ s

/-- source: the row construction in `formatLogsAsTable` —
`entry.timestamp.substring(0, 19)`, severity, resource type, and
`entry.logData.substring(0, 100) + (entry.logData.length > 100 ? '...' : '')`. -/
def tableRowOf (e : LogEntry) : TableRow :=
  { ts := strTake e.timestamp 19
    sev := e.severity
    res := e.resourceType
    msg := strTake e.logData 100 ++ (if e.logData.length > 100 then "..." else "") }

/-- source: `Math.max(header.length, ...rows.map(row => row[i].length))`. -/
def colWidth (hlen : Nat) (cells : List String) : Nat :=
  cells.foldl (fun a s => max a s.length) hlen

/-- Render header row, dash separator and data rows with a given cell-padding
function (source uses `padEnd`; rows joined by `' | '`, dashes by `'-+-'`,
lines by newlines). -/
def renderTableWith (pad : String → Nat → String) (rows : List TableRow)
    (w1 w2 w3 w4 : Nat) : String :=
  joinWith "\n" (
    joinWith " | " [pad "Timestamp" w1, pad "Severity" w2, pad "Resource" w3,
      pad "Message" w4] ::
    joinWith "-+-" [String.mk (List.replicate w1 '-'),
      String.mk (List.replicate w2 '-'), String.mk (List.replicate w3 '-'),
      String.mk (List.replicate w4 '-')] ::
    rows.map (fun r => joinWith " | " [pad r.ts w1, pad r.sev w2, pad r.res w3,
      pad r.msg w4]))

/-- source: `formatLogsAsTable(logEntries)`. -/
def formatLogsAsTable (entries : List LogEntry) : String :=
  if entries.isEmpty then "No logs found."
  else
    renderTableWith padEnd (entries.map tableRowOf)
      (colWidth "Timestamp".length ((entries.map tableRowOf).map TableRow.ts))
      (colWidth "Severity".length ((entries.map tableRowOf).map TableRow.sev))
      (colWidth "Resource".length ((entries.map tableRowOf).map TableRow.res))
      (colWidth "Message".length ((entries.map tableRowOf).map TableRow.msg))

/-- The claim's column width: the maximum of the header length and all the
column's cell lengths (written as a right fold). -/
def maxLen (hlen : Nat) (cells : List String) : Nat :=
  cells.foldr (fun s a => max s.length a) hlen

/-- The amended claim's message cell: cut at 100 characters and suffixed with
an ellipsis marker exactly when the original `logData` exceeds 100. -/
def specMsgCell (s : String) : String :=
  if s.length > 100 then strTake s 100 ++ "..." else s

/-- The amended claim's row: the first (up to) 19 characters of the timestamp,
severity, resource type and the truncated message. -/
def specRowOf (e : LogEntry) : TableRow :=
  { ts := strTake e.timestamp 19
    sev := e.severity
    res := e.resourceType
    msg := specMsgCell e.logData }

/-- The amended claim's table: four columns with widths `maxLen`, cells
left-aligned (padded on the right) to the column width. -/
def specTableAmended (entries : List LogEntry) : String :=
  renderTableWith padEnd (entries.map specRowOf)
    (maxLen "Timestamp".length ((entries.map specRowOf).map TableRow.ts))
    (maxLen "Severity".length ((entries.map specRowOf).map TableRow.sev))
    (maxLen "Resource".length ((entries.map specRowOf).map TableRow.res))
    (maxLen "Message".length ((entries.map specRowOf).map TableRow.msg))

/-- The original claim's literal table: same cells and widths but each cell
left-padded (spaces before the text) to its column width. -/
def claimedTableLeftPad (entries : List LogEntry) : String :=
  renderTableWith padStart (entries.map specRowOf)
    (maxLen "Timestamp".length ((entries.map specRowOf).map TableRow.ts))
    (maxLen "Severity".length ((entries.map specRowOf).map TableRow.sev))
    (maxLen "Resource".length ((entries.map specRowOf).map TableRow.res))
    (maxLen "Message".length ((entries.map specRowOf).map TableRow.msg))

theorem maxLen_max (x a : Nat) (t : List String) :
    maxLen (max a x) t = max x (maxLen a t) := by
  induction t with
  | nil => exact Nat.max_comm a x
  | cons s r ih =>
    simp only [maxLen, List.foldr_cons] at ih ⊢
    rw [ih, Nat.max_left_comm]

theorem colWidth_eq_maxLen (hlen : Nat) (cells : List String) :
    colWidth hlen cells = maxLen hlen cells := by
  induction cells generalizing hlen with
  | nil => rfl
  | cons s t ih =>
    simp only [colWidth, List.foldl_cons] at ih ⊢
    rw [ih (max hlen s.length)]
    exact maxLen_max s.length hlen t

theorem strTake_of_le {s : String} {n : Nat} (h : s.length ≤ n) :
    strTake s n = s := by
  cases s with
  | mk data => exact congrArg String.mk (List.take_of_length_le h)

theorem rowOf_eq (e : LogEntry) : tableRowOf e = specRowOf e := by
  unfold tableRowOf specRowOf specMsgCell
  by_cases h : e.logData.length > 100
  · simp [h]
  · simp only [h, if_neg h, if_false]
    rw [strTake_of_le (Nat.le_of_not_lt h)]
    simp

/-- C6 counterexample: for the normalized entry with timestamp `"N/A"` the
timestamp cell has length 3, not 19, and the rendered table differs from the
claim's literally left-padded table — the source pads cells on the right. -/
theorem claim_C6_counterexample :
    (tableRowOf
      { timestamp := "N/A", severity := "INFO", resourceType := "unknown",
        logData := "x" }).ts.length = 3
    ∧ (3 : Nat) ≠ 19
    ∧ formatLogsAsTable
        [{ timestamp := "N/A", severity := "INFO", resourceType := "unknown",
           logData := "x" }] ≠
      claimedTableLeftPad
        [{ timestamp := "N/A", severity := "INFO", resourceType := "unknown",
           logData := "x" }] :=
  ⟨rfl, by decide, by decide⟩

/-- C6 (amended): for every non-empty entry list, the table has the four
columns `Timestamp, Severity, Resource, Message`, each column's width is the
maximum of the header length and all that column's cell lengths, a message
cell is cut at 100 characters and suffixed with an ellipsis marker exactly
when the `logData` exceeds 100 characters, a timestamp cell is the first (up
to) 19 characters of the timestamp, and every cell is left-aligned — padded on
the right — to its column width, with columns joined by `" | "`. -/
theorem claim_C6_table (entries : List LogEntry) (hne : entries ≠ []) :
    formatLogsAsTable entries = specTableAmended entries := by
  have hfun : tableRowOf = specRowOf := funext rowOf_eq
  unfold formatLogsAsTable specTableAmended
  rw [if_neg (by simp [hne]), hfun, colWidth_eq_maxLen, colWidth_eq_maxLen,
    colWidth_eq_maxLen, colWidth_eq_maxLen]

/-- Witness for C6 at a two-entry list exercising message truncation. -/
theorem claim_C6_witness :
    formatLogsAsTable
      [{ timestamp := "2024-01-02T03:04:05.678Z", severity := "ERROR",
         resourceType := "cloud_run_revision",
         logData := String.mk (List.replicate 105 'a') },
       { timestamp := "2024-01-02T03:04:06.000Z", severity := "INFO",
         resourceType := "cloud_run_revision", logData := "ok" }] =
    specTableAmended
      [{ timestamp := "2024-01-02T03:04:05.678Z", severity := "ERROR",
         resourceType := "cloud_run_revision",
         logData := String.mk (List.replicate 105 'a') },
       { timestamp := "2024-01-02T03:04:06.000Z", severity := "INFO",
         resourceType := "cloud_run_revision", logData := "ok" }] :=
  claim_C6_table _ (List.cons_ne_nil _ _)

/-! ## `get_service_log` pagination loop (source: `tools.js`) -/

/-- One backend response of `getServiceLogs`: optional log text and optional
pagination state for the next page (the type `τ` of that state is opaque to
the handler, which passes it back verbatim). -/
structure ServiceLogPage (τ : Type) where
  logs : Option String
  requestOptions : Option τ

/-- The log text a page carries: `if (response.logs) allLogs.push(response.logs)`
pushes only a truthy (present and non-empty) `logs` value. -/
def pageText {τ : Type} (r : ServiceLogPage τ) : Option String :=
  match r.logs with
  | some s => if s = "" then none else some s
  | none => none

/-- source: the `do … while (requestOptions)` loop of the `get_service_log`
handler, with the backend stubbed by the list of responses it returns on
successive calls.  The result pairs the returned text (`allLogs.join('\n')`)
with the trace of `requestOptions` values passed to each backend call; `none`
means the stubbed responses ran out while the loop still wanted a next page. -/
def serviceLogLoop {τ : Type} :
    List (ServiceLogPage τ) → Option τ → List String → List (Option τ) →
      Option (String × List (Option τ))
  | [], _, _, _ => none
  | r :: rest, opts, acc, calls =>
    if (r.requestOptions).isSome then
      serviceLogLoop rest r.requestOptions (acc ++ (pageText r).toList)
        (calls ++ [opts])
    else
      some (joinWith "\n" (acc ++ (pageText r).toList), calls ++ [opts])

/-- source: the handler starts with `let requestOptions;` (undefined) and an
empty accumulator. -/
def runGetServiceLog {τ : Type} (responses : List (ServiceLogPage τ)) :
    Option (String × List (Option τ)) :=
  serviceLogLoop responses none [] []

theorem serviceLogLoop_spec {τ : Type} (init : List (ServiceLogPage τ))
    (last : ServiceLogPage τ)
    (hmid : ∀ r ∈ init, (r.requestOptions).isSome = true)
    (hlast : last.requestOptions = none) :
    ∀ opts acc calls,
      serviceLogLoop (init ++ [last]) opts acc calls =
        some (joinWith "\n" (acc ++ (init ++ [last]).filterMap pageText),
          calls ++ opts :: init.map ServiceLogPage.requestOptions) := by
  induction init with
  | nil =>
    intro opts acc calls
    cases hpt : pageText last with
    | none => simp [serviceLogLoop, hlast, hpt]
    | some s => simp [serviceLogLoop, hlast, hpt]
  | cons r rest ih =>
    intro opts acc calls
    have hr : (r.requestOptions).isSome = true := hmid r (List.mem_cons_self r rest)
    have ih' := ih (fun x hx => hmid x (List.mem_cons_of_mem r hx)) r.requestOptions
      (acc ++ (pageText r).toList) (calls ++ [opts])
    simp only [List.cons_append, serviceLogLoop, hr, if_true, List.append_eq]
    rw [ih']
    cases hpt : pageText r with
    | none => simp [hpt, List.append_assoc]
    | some s => simp [hpt, List.append_assoc]

/-- C3: for every backend whose first `k-1` responses carry pagination state
and whose `k`-th carries none, the `get_service_log` handler issues exactly
`k` backend calls — the first with no request options, each later one passing
the previous response's `requestOptions` verbatim — and returns the
newline-join of the log text carried by the pages, in per-page order. -/
theorem claim_C3_pagination {τ : Type} (init : List (ServiceLogPage τ))
    (last : ServiceLogPage τ)
    (hmid : ∀ r ∈ init, (r.requestOptions).isSome = true)
    (hlast : last.requestOptions = none) :
    runGetServiceLog (init ++ [last]) =
      some (joinWith "\n" ((init ++ [last]).filterMap pageText),
        none :: init.map ServiceLogPage.requestOptions)
    ∧ (none :: init.map ServiceLogPage.requestOptions).length =
        (init ++ [last]).length := by
  constructor
  · simpa [runGetServiceLog] using serviceLogLoop_spec init last hmid hlast none [] []
  · simp

/-- Witness for C3: three pages of sizes 2, 2, 1 with tokens `t1`, `t2`, none —
exactly three calls, tokens threaded in order, five entries concatenated. -/
theorem claim_C3_witness :
    runGetServiceLog (τ := String)
      ([⟨some "p1a\np1b", some "t1"⟩, ⟨some "p2a\np2b", some "t2"⟩] ++
        [⟨some "p3", none⟩]) =
      some ("p1a\np1b\np2a\np2b\np3", [none, some "t1", some "t2"])
    ∧ ([none, some "t1", some "t2"] : List (Option String)).length = 3 :=
  ⟨((claim_C3_pagination
      [⟨some "p1a\np1b", some "t1"⟩, ⟨some "p2a\np2b", some "t2"⟩]
      ⟨some "p3", none⟩ (by decide) rfl).1 : _),
   rfl⟩

/-! ## Handler validation and error payloads (source: `tools.js`) -/

/-- `s.split('/').pop()`: the final `/`-separated segment of a string. -/
def lastSegment (s : String) : String :=
  String.mk ((s.data.reverse.takeWhile (fun c => c ≠ '/')).reverse)

/-- source: the `list_services` handler.  The result type distinguishes a
payload returned to the registration layer (`Except.ok`) from an exception
escaping the handler (`Except.error`); this handler always returns a payload —
a validation failure or a caught backend error becomes error *text*.  The
backend call `listServices(project, region)` is stubbed by its outcome:
a list of `(name, uri)` services or a thrown error message. -/
def listServicesHandler (project : Option String) (region : String)
    (backend : Except String (List (String × String))) : Except String String :=
  Except.ok (match project with
    | none => "Error: Project ID must be provided and be a non-empty string."
    | some p =>
      match backend with
      | Except.ok services =>
        "Services in project " ++ p ++ " (location " ++ region ++ "):\n" ++
          joinWith "\n" (services.map (fun s =>
            "- " ++ lastSegment s.1 ++ " (URL: " ++ s.2 ++ ")"))
      | Except.error e =>
        "Error listing services for project " ++ p ++ " (region " ++ region ++
          "): " ++ e)

/-- source: the `deploy_local_files` handler.  Its three validation checks
`throw new Error(...)` **outside** the `try` block, so they escape the handler
(`Except.error`); only the `deploy(...)` call is wrapped in `try`/`catch`, its
failure becoming an error payload (`Except.ok` with error text). -/
def deployLocalFilesHandler (project : Option String) (files : Option (List String))
    (deployResult : Except String String) (service region : String) :
    Except String String :=
  match project with
  | none => Except.error "Project must specified, please prompt the user for a valid existing Google Cloud project ID."
  | some p =>
    match files with
    | none => Except.error "Files must specified"
    | some [] => Except.error "No files specified for deployment"
    | some (_ :: _) =>
      Except.ok (match deployResult with
        | Except.ok uri =>
          "Cloud Run service " ++ service ++ " deployed in project " ++ p ++
            "\nCloud Console: https://console.cloud.google.com/run/detail/" ++
            region ++ "/" ++ service ++ "?project=" ++ p ++ "\nService URL: " ++ uri
        | Except.error e => "Error deploying to Cloud Run: " ++ e)

/-- A file object passed to `deploy_file_contents`: a filename and optional
text content. -/
structure FileObj where
  filename : String
  content : Option String

/-- source: the `deploy_file_contents` handler; like `deploy_local_files` but
additionally throwing (outside the `try`) for the first file whose `content`
is falsy (absent or empty). -/
def deployFileContentsHandler (project : Option String)
    (files : Option (List FileObj)) (deployResult : Except String String)
    (service region : String) : Except String String :=
  match project with
  | none => Except.error "Project must specified, please prompt the user for a valid existing Google Cloud project ID."
  | some p =>
    match files with
    | none => Except.error "Files must be specified"
    | some [] => Except.error "No files specified for deployment"
    | some (f0 :: fs) =>
      match (f0 :: fs).find? (fun f => f.content.getD "" = "") with
      | some f => Except.error ("File " ++ f.filename ++ " must have content")
      | none =>
        Except.ok (match deployResult with
          | Except.ok uri =>
            "Cloud Run service " ++ service ++ " deployed in project " ++ p ++
              "\nCloud Console: https://console.cloud.google.com/run/detail/" ++
              region ++ "/" ++ service ++ "?project=" ++ p ++ "\nService URL: " ++ uri
          | Except.error e => "Error deploying to Cloud Run: " ++ e)

/-- C5 counterexample: invoking `deploy_local_files` with an empty `files`
array makes the handler throw — the result is an escaping exception, not a
normal error payload. -/
theorem claim_C5_counterexample :
    deployLocalFilesHandler (some "my-project") (some [])
        (Except.ok "https://svc.run.app") "svc" "europe-west1" =
      Except.error "No files specified for deployment"
    ∧ (deployLocalFilesHandler (some "my-project") (some [])
        (Except.ok "https://svc.run.app") "svc" "europe-west1").isOk = false :=
  ⟨rfl, rfl⟩

/-- C5 (amended): the non-deploy handlers (here `list_services`) return a
normal payload for every argument — validation failures and backend errors
become error text; the deploy handlers return a payload exactly when their
validation passes (project present; files present and non-empty; for
`deploy_file_contents`, every file with truthy content), and otherwise throw —
the exception escapes to the registration layer.  Backend failures never
escape: with validation passed the result is a payload whatever the deploy
outcome. -/
theorem claim_C5_validation (project : Option String) (region service : String)
    (files : Option (List String)) (cfiles : Option (List FileObj))
    (svcBackend : Except String (List (String × String)))
    (deployResult : Except String String) :
    (listServicesHandler project region svcBackend).isOk = true
    ∧ ((deployLocalFilesHandler project files deployResult service region).isOk
          = true ↔ project.isSome = true ∧ files ≠ none ∧ files ≠ some [])
    ∧ ((deployFileContentsHandler project cfiles deployResult service region).isOk
          = true ↔ project.isSome = true ∧ cfiles ≠ none ∧ cfiles ≠ some [] ∧
        ∀ f ∈ cfiles.getD [], f.content.getD "" ≠ "") := by
  refine ⟨rfl, ?_, ?_⟩
  · cases project with
    | none => simp [deployLocalFilesHandler, Except.isOk, Except.toBool]
    | some p =>
      cases files with
      | none => simp [deployLocalFilesHandler, Except.isOk, Except.toBool]
      | some fs =>
        cases fs with
        | nil => simp [deployLocalFilesHandler, Except.isOk, Except.toBool]
        | cons f rest => simp [deployLocalFilesHandler, Except.isOk, Except.toBool]
  · cases project with
    | none => simp [deployFileContentsHandler, Except.isOk, Except.toBool]
    | some p =>
      cases cfiles with
      | none => simp [deployFileContentsHandler, Except.isOk, Except.toBool]
      | some fs =>
        cases fs with
        | nil => simp [deployFileContentsHandler, Except.isOk, Except.toBool]
        | cons f0 rest =>
          cases hfind : (f0 :: rest).find? (fun f => f.content.getD "" = "") with
          | some g =>
            simp only [deployFileContentsHandler, hfind, Except.isOk, Except.toBool]
            constructor
            · intro h; cases h
            · rintro ⟨-, -, -, hall⟩
              have hg : g.content.getD "" = "" := by
                simpa using List.find?_some hfind
              exact absurd hg (hall g (List.mem_of_find?_eq_some hfind))
          | none =>
            simp only [deployFileContentsHandler, hfind, Except.isOk, Except.toBool]
            constructor
            · intro _
              refine ⟨rfl, by simp, by simp, ?_⟩
              intro f hf
              have hne := List.find?_eq_none.1 hfind f hf
              simpa using hne
            · intro _; trivial
